import Mathlib

/-!
Shallow embedding of the SpectraSeat radar bot (`src/bot.py`): the
`Opportunity` data model with its derived scores, the price extractor,
the two Ticketmaster watchlist adapters, the radar scan aggregator, the
alert filter of the background loop, the retrying HTML fetcher, and the
state effects of the `/scan` command, the HUD callbacks and the automatic
radar tick.

Python floats are modelled as rationals (`ℚ`); all score arithmetic in
the source stays within exactly representable small values, and every
claim here is about the shape of the formulas, not float rounding.
-/

namespace SpectraSeat

/-- Configuration constant `MONEY_MAKER_THRESHOLD` (bot.py line 58). -/
def MONEY_MAKER_THRESHOLD : ℚ := 70

/-- Roster `TRENDING_ARTISTS` (bot.py lines 62-77). -/
def TRENDING_ARTISTS : List String :=
  ["Central Cee", "Drake", "Taylor Swift", "Fred again", "WHP",
   "Warehouse Project", "Mint Festival", "Parklife", "Creamfields",
   "Wireless", "TRNSMT", "Reading", "Leeds", "Isle of Wight"]

/-- Roster `TRENDING_FIGHTERS` (bot.py lines 79-88). -/
def TRENDING_FIGHTERS : List String :=
  ["Jake Paul", "Anthony Joshua", "Tyson Fury", "KSI", "UFC",
   "Fight Night", "Matchroom Boxing", "Championship Boxing"]

/-- Roster `UK_CITIES` (bot.py lines 90-100). -/
def UK_CITIES : List String :=
  ["London", "Manchester", "Leeds", "Birmingham", "Liverpool", "Glasgow",
   "Edinburgh", "Bristol", "Newcastle"]

/-- Python `s.lower()` on the character sequence of `s` (String.toLower is
the same map, exposed here on `List Char` so that terms reduce). -/
def lowerStr (s : String) : List Char := s.toList.map Char.toLower

/-- Python `needle.lower() in hay.lower()`: case-insensitive substring test,
as used for the trending-name matches in both adapters. -/
def lowerIn (needle hay : String) : Bool :=
  decide (lowerStr needle <:+: lowerStr hay)

/-- Python `a.lower() == b.lower()`: case-insensitive equality, as used for
the UK-city match in the music adapter. -/
def lowerEq (a b : String) : Bool :=
  lowerStr a == lowerStr b

/-- The `Opportunity` dataclass (bot.py lines 205-218). Floats become `ℚ`. -/
structure Opportunity where
  event_id : String
  name : String
  city : String
  venue : String
  date_str : String
  source : String
  primary_min : ℚ
  primary_max : ℚ
  demand_score : ℚ
  risk_score : ℚ
  url : Option String := none
  tags : Option (List String) := none
deriving DecidableEq, Repr

/-- The `margin_pct_guess` property (bot.py lines 220-228): `0.0` when
`primary_min <= 0`, otherwise `max 0 (10 + cheap_boost + (demand - 50) * 0.4)`
with `cheap_boost = 10` when `primary_min <= 50`. `0.4` is `2/5`. -/
def Opportunity.margin_pct_guess (o : Opportunity) : ℚ :=
  if o.primary_min ≤ 0 then 0
  else
    let base : ℚ := 10
    let cheap_boost : ℚ := if o.primary_min ≤ 50 then 10 else 0
    let demand_boost : ℚ := (o.demand_score - 50) * (2 / 5)
    max 0 (base + cheap_boost + demand_boost)

/-- The `trade_score` property (bot.py lines 230-233): recomputed on every
read from the stored fields, never a stored field of the dataclass. -/
def Opportunity.trade_score (o : Opportunity) : ℚ :=
  o.demand_score + o.margin_pct_guess - o.risk_score

/-!
Price extraction (`extract_prices_from_html`, bot.py lines 296-356).

The raw HTML page is abstracted to exactly the observations the function
makes of it:
* whether one of the seven "no events" marker phrases occurs in the
  lowercased page (`hasNoEventsMarker`);
* the list of float values collected, in walk order, from `"price"` keys in
  the JSON block matched by the `"offers"` regex (empty when no block
  matches or it fails to parse); a JSON price value may be negative;
* the list of numbers matched by the fallback regex `[£](\d+(?:\.\d{1,2})?)`;
  these are parsed from bare digit strings, hence nonnegative, which is
  recorded as the invariant `regexPrices_nonneg`.
-/

/-- Observable content of an HTML page as seen by `extract_prices_from_html`. -/
structure Page where
  hasNoEventsMarker : Bool
  jsonPrices : List ℚ
  regexPrices : List ℚ
  regexPrices_nonneg : ∀ p ∈ regexPrices, 0 ≤ p

/-- The extractor (bot.py lines 296-356): a marker phrase yields the sentinel
`(-1, -1)`; otherwise the price list is the JSON walk result, falling back to
the `£`-regex matches when that is empty; an empty combined list also yields
`(-1, -1)` ("If still no prices, treat as non-tradable"); otherwise the pair
is `(min prices, max prices)`. -/
def extract_prices_from_html (pg : Page) : ℚ × ℚ :=
  if pg.hasNoEventsMarker then (-1, -1)
  else
    match (if pg.jsonPrices.isEmpty then pg.regexPrices else pg.jsonPrices) with
    | [] => (-1, -1)
    | p :: ps => (ps.foldl min p, ps.foldl max p)

/-- `scrape_ticketmaster_prices` (bot.py lines 359-367): a failed fetch
(`fetch_html` returned `None`) gives the sentinel, otherwise extraction runs
on the body. The fetched page, if any, is the `Option Page` argument. -/
def scrape_ticketmaster_prices (fetched : Option Page) : ℚ × ℚ :=
  match fetched with
  | none => (-1, -1)
  | some pg => extract_prices_from_html pg

/-- One watchlist entry (the dicts of `TM_MUSIC_WATCHLIST` and
`TM_BOXING_WATCHLIST`, bot.py lines 107-199); every configured entry carries
all six keys. -/
structure WatchTarget where
  event_id : String
  name : String
  city : String
  venue : String
  date_str : String
  url : String
deriving DecidableEq, Repr

/-- `TM_MUSIC_WATCHLIST` (bot.py lines 107-156). -/
def TM_MUSIC_WATCHLIST : List WatchTarget :=
  [⟨"parklife_2026_weekend", "Rockstar Energy presents Parklife 2026 (Weekend)",
    "Manchester", "Heaton Park", "20–21 Jun 2026",
    "https://www.ticketmaster.co.uk/parklife-2026-weekend-ticket-manchester-20-06-2026/event/3E00635D8DCC3331"⟩,
   ⟨"wireless_2025_weekend", "Wireless Festival 2025 (Weekend)",
    "London", "Finsbury Park", "11–13 Jul 2025",
    "https://www.ticketmaster.co.uk/wireless-festival-tickets/artist/28989"⟩,
   ⟨"creamfields_2025_4day", "Rockstar Energy presents Creamfields 2025 (4 Day Camping)",
    "Daresbury", "Creamfields, Cheshire", "21–24 Aug 2025",
    "https://www.ticketmaster.co.uk/creamfields-2025-4-day-camping-standard-cheshire-08-21-2025/event/37006109C7B86B50"⟩,
   ⟨"reading_leeds_2026", "Reading & Leeds Festival 2026",
    "Reading/Leeds", "Richfield Ave / Bramham Park", "28–30 Aug 2026",
    "https://www.ticketmaster.co.uk/reading-and-leeds-festival"⟩,
   ⟨"isle_of_wight_2026", "Isle of Wight Festival 2026 (Weekend)",
    "Newport", "Isle of Wight Festival", "18–21 Jun 2026",
    "https://www.ticketmaster.co.uk/isle-of-wight-festival-2026-weekend-ticket-newport-18-06-2026/event/1F006339AF837869"⟩,
   ⟨"trnsmt_2026_3day", "TRNSMT Festival 2026 (3 Day Ticket)",
    "Glasgow", "Glasgow Green", "19–21 Jun 2026",
    "https://www.ticketmaster.co.uk/trnsmt-2026-3-day-ticket-glasgow-19-06-2026/event/3600636394705B24"⟩]

/-- `TM_BOXING_WATCHLIST` (bot.py lines 158-199). -/
def TM_BOXING_WATCHLIST : List WatchTarget :=
  [⟨"itauma_franklin_2026", "Itauma vs Franklin – The Magnificent Seven",
    "Manchester", "Co-op Live", "24 Jan 2026",
    "https://www.ticketmaster.co.uk/moses-itauma-tickets/artist/5651848"⟩,
   ⟨"chisora_wallin_2025", "Derek Chisora vs Otto Wallin – The Last Dance",
    "Manchester", "Co-op Live", "08 Feb 2025",
    "https://www.ticketmaster.co.uk/dereck-chisora-tickets/artist/1605089"⟩,
   ⟨"misfits_x_series_22", "Misfits & DAZN: X Series 22 (Darren Till vs Rockhold)",
    "Manchester", "AO Arena", "30 Aug 2025",
    "https://www.ticketmaster.co.uk/venue-premium-tickets-misfits-dazn-x-series-22-manchester-30-08-2025/event/1F0062F5A5A20EDE"⟩,
   ⟨"matchroom_boxing_uk", "Matchroom Boxing UK – Major Cards",
    "UK-wide", "Various arenas", "2025–26",
    "https://www.ticketmaster.co.uk/matchroom-boxing-uk-tickets/artist/5363334"⟩,
   ⟨"championship_boxing", "Championship Boxing – Title Fights",
    "UK-wide", "Various arenas", "2025–26",
    "https://www.ticketmaster.co.uk/championship-boxing-tickets/artist/838100"⟩]

/-- Demand scoring of the music adapter (bot.py lines 402-415): base `55`,
`+10` on a case-insensitive UK-city match, `+25` when some trending artist
name occurs in the lowercased event name (the `for`/`break` loop applies the
boost at most once, so it equals an `any` test), `+10` when
`0 < primary_min ≤ 80`. -/
def musicDemand (name city : String) (primary_min : ℚ) : ℚ :=
  (55 : ℚ)
  + (if UK_CITIES.any (fun c => lowerEq c city) then 10 else 0)
  + (if TRENDING_ARTISTS.any (fun a => lowerIn a name) then 25 else 0)
  + (if 0 < primary_min ∧ primary_min ≤ 80 then 10 else 0)

/-- Tags of the music adapter (bot.py lines 419-423). -/
def musicTags (demand primary_min : ℚ) : List String :=
  ["festival"]
  ++ (if 0 < primary_min ∧ primary_min ≤ 60 then ["cheap-entry"] else [])
  ++ (if 80 ≤ demand then ["hype"] else [])

/-- The `Opportunity` built by the music adapter for one watch target
(bot.py lines 425-438): `source = "TM-Festival"`, `risk_score = 20`. -/
def musicOpp (cfg : WatchTarget) (pmin pmax : ℚ) : Opportunity :=
  { event_id := cfg.event_id
    name := cfg.name
    city := cfg.city
    venue := cfg.venue
    date_str := cfg.date_str
    source := "TM-Festival"
    primary_min := pmin
    primary_max := pmax
    demand_score := musicDemand cfg.name cfg.city pmin
    risk_score := 20
    url := some cfg.url
    tags := some (musicTags (musicDemand cfg.name cfg.city pmin) pmin) }

/-- `fetch_tm_music_hot` (bot.py lines 374-441). The provider toggle is the
`enabled` flag; the page each URL fetch yields this cycle is the
`fetchResult` function (`none` models a failed `fetch_html`). A target with
an empty URL is skipped, and a target whose scraped price pair has both
components negative (the sentinel) is skipped for this cycle. -/
def fetch_tm_music_hot (enabled : Bool) (watchlist : List WatchTarget)
    (fetchResult : WatchTarget → Option Page) : List Opportunity :=
  if enabled = false then []
  else
    watchlist.filterMap fun cfg =>
      if cfg.url = "" then none
      else
        let p := scrape_ticketmaster_prices (fetchResult cfg)
        if p.1 < 0 ∧ p.2 < 0 then none
        else some (musicOpp cfg p.1 p.2)

/-- Demand scoring of the boxing adapter (bot.py lines 472-488): base `60`,
`+30` on a trending-fighter match (loop with `break`, hence at most once),
`+10` when `0 < primary_min ≤ 120`. -/
def boxingDemand (name : String) (primary_min : ℚ) : ℚ :=
  (60 : ℚ)
  + (if TRENDING_FIGHTERS.any (fun f => lowerIn f name) then 30 else 0)
  + (if 0 < primary_min ∧ primary_min ≤ 120 then 10 else 0)

/-- Tags of the boxing adapter (bot.py lines 482-489). -/
def boxingTags (name : String) (primary_min : ℚ) : List String :=
  ["boxing"]
  ++ (if lowerIn "jake paul" name || lowerIn "ksi" name then ["crossover"] else [])
  ++ (if lowerIn "anthony joshua" name || lowerIn "tyson fury" name || lowerIn "ufc" name
      then ["elite"] else [])
  ++ (if 0 < primary_min ∧ primary_min ≤ 120 then ["affordable-entry"] else [])

/-- The `Opportunity` built by the boxing adapter for one watch target
(bot.py lines 491-504): `source = "TM-Boxing"`, `risk_score = 25`. -/
def boxingOpp (cfg : WatchTarget) (pmin pmax : ℚ) : Opportunity :=
  { event_id := cfg.event_id
    name := cfg.name
    city := cfg.city
    venue := cfg.venue
    date_str := cfg.date_str
    source := "TM-Boxing"
    primary_min := pmin
    primary_max := pmax
    demand_score := boxingDemand cfg.name pmin
    risk_score := 25
    url := some cfg.url
    tags := some (boxingTags cfg.name pmin) }

/-- `fetch_tm_boxing_hot` (bot.py lines 444-507), same shape as the music
adapter. -/
def fetch_tm_boxing_hot (enabled : Bool) (watchlist : List WatchTarget)
    (fetchResult : WatchTarget → Option Page) : List Opportunity :=
  if enabled = false then []
  else
    watchlist.filterMap fun cfg =>
      if cfg.url = "" then none
      else
        let p := scrape_ticketmaster_prices (fetchResult cfg)
        if p.1 < 0 ∧ p.2 < 0 then none
        else some (boxingOpp cfg p.1 p.2)

/-- Descending order on `trade_score`: `tradeGE a b` holds when `a` may come
before `b` in the sorted scan result. -/
def tradeGE (a b : Opportunity) : Prop := b.trade_score ≤ a.trade_score

instance : DecidableRel tradeGE := fun a b =>
  inferInstanceAs (Decidable (b.trade_score ≤ a.trade_score))

instance : IsTotal Opportunity tradeGE :=
  ⟨fun a b => (le_total b.trade_score a.trade_score).imp id id⟩

instance : IsTrans Opportunity tradeGE :=
  ⟨fun _ _ _ h1 h2 => le_trans h2 h1⟩

/-- `run_radar_scan` (bot.py lines 514-524): concatenate the two adapters'
outputs (music first, matching the `gather` order) and stable-sort by
`trade_score` descending. Python `list.sort(key=..., reverse=True)` is a
stable sort that keeps elements with equal keys in their original relative
order; `List.insertionSort` with the total preorder `tradeGE` is exactly
such a stable descending sort. -/
def run_radar_scan (musicEnabled boxingEnabled : Bool)
    (musicWl boxingWl : List WatchTarget)
    (fetchResult : WatchTarget → Option Page) : List Opportunity :=
  List.insertionSort tradeGE
    (fetch_tm_music_hot musicEnabled musicWl fetchResult
      ++ fetch_tm_boxing_hot boxingEnabled boxingWl fetchResult)

/-- The qualifying-and-new sublist of a scan result, in rank order:
`hot_opps` then `new_hot` of `radar_auto_loop` (bot.py lines 551-553). -/
def qualifyingNew (opps : List Opportunity) (alerted : Finset String)
    (threshold : ℚ) : List Opportunity :=
  (opps.filter fun o => decide (threshold ≤ o.trade_score)).filter
    fun o => decide (o.event_id ∉ alerted)

/-- The alert filter of `radar_auto_loop` (bot.py lines 551-561): keep
opportunities at or above the threshold, drop already-alerted identifiers,
truncate to the first `maxBatch` in rank order (`new_hot[:5]`), and insert
exactly the truncated batch's identifiers into the alerted set. Returns the
delivered batch and the updated set. -/
def selectAlerts (opps : List Opportunity) (alerted : Finset String)
    (threshold : ℚ) (maxBatch : ℕ) : List Opportunity × Finset String :=
  let delivered := (qualifyingNew opps alerted threshold).take maxBatch
  (delivered, alerted ∪ (delivered.map (fun o => o.event_id)).toFinset)

/-!
The retrying fetcher `fetch_html` (bot.py lines 240-293). One attempt on the
wire either produces an HTTP response (status code and body) or raises a
transport-level exception; the environment `env` gives the outcome of the
`i`-th attempt (0-based). The model returns the value the caller observes,
the number of attempts made, and the list of backoff sleeps performed, in
order.
-/

/-- Outcome of a single `client.get` call: an HTTP response, or an exception
caught by the `except` clause (timeouts, connection errors, ...). -/
inductive AttemptOutcome where
  | response (status : Nat) (body : String)
  | transportError
deriving DecidableEq, Repr

/-- The statuses the source retries on (bot.py line 262):
`(429, 500, 502, 503, 504)`. A transport error is also retried. -/
def retryable : AttemptOutcome → Bool
  | .response s _ => s == 429 || s == 500 || s == 502 || s == 503 || s == 504
  | .transportError => true

/-- What one logical `fetch_html` call produces: the caller-visible result,
the attempts consumed, and the sleeps performed. -/
structure FetchTrace where
  result : Option String
  attempts : Nat
  sleeps : List Nat
deriving DecidableEq, Repr

/-- The attempt loop of `fetch_html` (bot.py lines 255-293): a 200 response
returns its body at once; a retryable status or a transport error sleeps the
current delay, doubles it capped at 60 (`delay = min(delay * 2, 60)`), and
moves to the next attempt; any other status returns `None` immediately; an
exhausted loop returns `None`. -/
def fetchAux (env : Nat → AttemptOutcome) : Nat → Nat → Nat → FetchTrace
  | 0, _, _ => ⟨none, 0, []⟩
  | remaining + 1, i, delay =>
    match env i with
    | .response s body =>
      if s = 200 then ⟨some body, 1, []⟩
      else if retryable (.response s body) then
        let rest := fetchAux env remaining (i + 1) (min (delay * 2) 60)
        ⟨rest.result, rest.attempts + 1, delay :: rest.sleeps⟩
      else ⟨none, 1, []⟩
    | .transportError =>
      let rest := fetchAux env remaining (i + 1) (min (delay * 2) 60)
      ⟨rest.result, rest.attempts + 1, delay :: rest.sleeps⟩

/-- `fetch_html` (bot.py lines 240-293): `max_retries = 3` attempts by
default, initial backoff delay `5`. -/
def fetch_html (env : Nat → AttemptOutcome) (max_retries : Nat := 3) : FetchTrace :=
  fetchAux env max_retries 0 5

/-- The backoff delay after `j` doublings of the base 5, capped at 60. -/
def dseq (j : Nat) : Nat := min (5 * 2 ^ j) 60

/-!
Global bot state and the handlers that touch it. The process-wide mutable
state of bot.py (lines 44-55) is `KNOWN_USERS`, `ALERTED_EVENT_IDS`,
`LAST_SCAN_TIME`, `LAST_SCAN_COUNT` and `PROVIDER_CONFIG`; each handler
becomes a function from this state (plus the pages the network would serve
this cycle) to the successor state together with its observable output. The
timestamp `datetime.now` is abstracted to a `Nat` supplied to the tick.
-/

/-- The process-wide mutable state of bot.py (lines 44-55). -/
structure BotState where
  known_users : Finset Int
  alerted : Finset String
  last_scan_time : Option Nat
  last_scan_count : Nat
  provider_tm_music : Bool
  provider_tm_boxing : Bool
deriving DecidableEq

/-- What a handler or a loop tick observably does: the successor state, the
alert messages pushed to subscribers via `app.bot.send_message`
(subscriber id paired with the alerted opportunity), and the opportunities
rendered back to the requester (via `reply_text`/`edit_message_text`). -/
structure HandlerEffect where
  state : BotState
  alertsSent : List (Int × Opportunity)
  reply : List Opportunity
deriving DecidableEq

/-- One full scan as run by every trigger path: `run_radar_scan` over the
configured watchlists with the current provider toggles. -/
def scanNow (s : BotState) (musicWl boxingWl : List WatchTarget)
    (fetchResult : WatchTarget → Option Page) : List Opportunity :=
  run_radar_scan s.provider_tm_music s.provider_tm_boxing musicWl boxingWl fetchResult

/-- `cmd_scan` (bot.py lines 833-850), also bound to `/ukhot`: adds the
requester to `KNOWN_USERS`, runs `run_radar_scan`, and renders the result
(through `build_hud_hot_text`, which shows the top 7) to the requester. It
writes neither `LAST_SCAN_TIME`/`LAST_SCAN_COUNT` nor `ALERTED_EVENT_IDS`,
and pushes no alert message to subscribers. -/
def cmd_scan (s : BotState) (musicWl boxingWl : List WatchTarget)
    (fetchResult : WatchTarget → Option Page) (user : Int) : HandlerEffect :=
  let s1 := { s with known_users := insert user s.known_users }
  { state := s1
    alertsSent := []
    reply := (scanNow s1 musicWl boxingWl fetchResult).take 7 }

/-- The `hud_hot` branch of `hud_callback` (bot.py lines 895-904): runs a
scan and renders the top 7; state is untouched. -/
def hud_hot (s : BotState) (musicWl boxingWl : List WatchTarget)
    (fetchResult : WatchTarget → Option Page) : HandlerEffect :=
  { state := s
    alertsSent := []
    reply := (scanNow s musicWl boxingWl fetchResult).take 7 }

/-- The `hud_scan` ("Force Scan") branch of `hud_callback` (bot.py lines
906-916): same observable behaviour as `hud_hot` up to the banner text. -/
def hud_scan (s : BotState) (musicWl boxingWl : List WatchTarget)
    (fetchResult : WatchTarget → Option Page) : HandlerEffect :=
  { state := s
    alertsSent := []
    reply := (scanNow s musicWl boxingWl fetchResult).take 7 }

/-- One iteration of `radar_auto_loop` (bot.py lines 540-610): with no known
users the tick does nothing; otherwise it runs a scan, overwrites the scan
metadata with the tick's timestamp and the scan's length, applies the alert
filter with `MONEY_MAKER_THRESHOLD` and batch cap 5, marks the delivered
batch in `ALERTED_EVENT_IDS`, and pushes each delivered opportunity to each
known user. Python iterates `list(KNOWN_USERS)` in unspecified set order;
the model lists users in ascending order, which the claims (about which
pairs are sent, and about the state) do not depend on. -/
def radar_tick (s : BotState) (musicWl boxingWl : List WatchTarget)
    (fetchResult : WatchTarget → Option Page) (now : Nat) : HandlerEffect :=
  if s.known_users = ∅ then { state := s, alertsSent := [], reply := [] }
  else
    let opps := scanNow s musicWl boxingWl fetchResult
    let s1 := { s with last_scan_time := some now, last_scan_count := opps.length }
    let sel := selectAlerts opps s1.alerted MONEY_MAKER_THRESHOLD 5
    { state := { s1 with alerted := sel.2 }
      alertsSent :=
        (s.known_users.sort (· ≤ ·)).flatMap fun u => sel.1.map (Prod.mk u)
      reply := [] }

/-!
Concrete instances used by witnesses and counterexamples.
-/

/-- A page that matches a "no events" marker phrase. -/
def pageMarker : Page := ⟨true, [], [], by simp⟩

/-- A page with no marker phrase, no JSON prices and no `£`-regex matches:
for example an event page whose prices are rendered only after client-side
script execution. -/
def pageEmpty : Page := ⟨false, [], [], by simp⟩

/-- A page with no marker, no usable JSON block, and a single regex match
`£40`. -/
def pagePrice40 : Page := ⟨false, [], [40], by decide⟩

/-- A page whose matched JSON block walks to the price values `10` and `-5`,
in that order: for example HTML containing
`\x7b"price": 10, "x": \x7b"price": -5\x7d, "offers": 1\x7d`, which the
`"offers"` regex captures whole (the lazy match ends at the first `\x7d`
after `"offers"`, here the outer one) and `json.loads` parses. -/
def pageNegJson : Page := ⟨false, [10, -5], [], by simp⟩

/-- A single watch target used in concrete runs. -/
def cfgA : WatchTarget :=
  ⟨"evt_a", "Drake Night", "London", "Venue A", "01 Jan 2026",
   "https://example.org/a"⟩

/-- Six music watch targets with distinct event ids; each scores demand 100
(UK city, trending artist, cheap entry) when scraped at `£40`. -/
def musicWl6 : List WatchTarget :=
  [⟨"d1", "Drake Night 1", "London", "V", "01 Jan 2026", "u1"⟩,
   ⟨"d2", "Drake Night 2", "London", "V", "01 Jan 2026", "u2"⟩,
   ⟨"d3", "Drake Night 3", "London", "V", "01 Jan 2026", "u3"⟩,
   ⟨"d4", "Drake Night 4", "London", "V", "01 Jan 2026", "u4"⟩,
   ⟨"d5", "Drake Night 5", "London", "V", "01 Jan 2026", "u5"⟩,
   ⟨"d6", "Drake Night 6", "London", "V", "01 Jan 2026", "u6"⟩]

/-- A concrete scan result with six opportunities, each of trade score 120,
all above `MONEY_MAKER_THRESHOLD`. -/
def scanC : List Opportunity :=
  run_radar_scan true true musicWl6 [] fun _ => some pagePrice40

/-- The network behaviour serving `pagePrice40` for every target. -/
def fetchW : WatchTarget → Option Page := fun _ => some pagePrice40

/-- Fresh process state: no users, nothing alerted, no scan recorded. -/
def s0 : BotState := ⟨∅, ∅, none, 0, true, true⟩

/-- An opportunity whose price is entirely unknown (`primary_min = 0`). -/
def oppUnknown : Opportunity :=
  ⟨"evt_u", "Unknown Price Gig", "London", "V", "01 Jan 2026", "TM-Festival",
   0, 0, 80, 20, none, none⟩

/-- An opportunity with demand 100, risk 0 and a cheap known price, whose
trade score evaluates to 140. -/
def oppHot : Opportunity :=
  ⟨"evt_h", "Hot Gig", "London", "V", "01 Jan 2026", "TM-Festival",
   40, 40, 100, 0, none, none⟩

/-- The opportunity the music adapter builds from `cfgA` at price `£40`. -/
def oppA40 : Opportunity := musicOpp cfgA 40 40

/-- An attempt environment: 503 on the first attempt, a transport error on
the second, success on the third. -/
def envRetry : Nat → AttemptOutcome := fun i =>
  if i = 0 then .response 503 "Service Unavailable"
  else if i = 1 then .transportError
  else .response 200 "ok"

/-- An attempt environment answering 404 at once. -/
def envNotFound : Nat → AttemptOutcome := fun _ => .response 404 "not found"

/-!
Theorems. Each claim of the specification review is settled by exactly one
named theorem below; shared helper lemmas come first.
-/

/-- The adapters skip a target whose scrape came back as the sentinel. -/
theorem adapters_drop_sentinel (cfg : WatchTarget) (fr : WatchTarget → Option Page)
    (hs : scrape_ticketmaster_prices (fr cfg) = (-1, -1)) :
    fetch_tm_music_hot true [cfg] fr = [] ∧ fetch_tm_boxing_hot true [cfg] fr = [] := by
  constructor <;>
  · by_cases hu : cfg.url = "" <;>
      simp [fetch_tm_music_hot, fetch_tm_boxing_hot, List.filterMap_cons, hu, hs]

/-- C3: for every `Opportunity`, `trade_score` is exactly
`demand_score + margin_pct_guess - risk_score`; both derived scores are
functions recomputed from the stored fields (neither is a field of the
dataclass), and no normalization or clamping is applied afterwards: the
concrete opportunity `oppHot` reaches trade score 140, above 100. -/
theorem C3_trade_score_formula :
    (∀ o : Opportunity,
      o.trade_score = o.demand_score + o.margin_pct_guess - o.risk_score) ∧
    oppHot.trade_score = 140 :=
  ⟨fun _ => rfl, by with_unfolding_all decide⟩

/-- C5 counterexample: on an opportunity whose price is entirely unknown
(`primary_min = 0`), `margin_pct_guess` is exactly `0`: the early return
`if self.primary_min <= 0: return 0.0` fires, so no presale-boosted base
margin exists, contrary to the claim. -/
theorem C5_counterexample :
    oppUnknown.primary_min = 0 ∧ oppUnknown.margin_pct_guess = 0 := by
  with_unfolding_all decide

/-- C5 amended: an unknown price (`primary_min ≤ 0`) yields margin `0`, not
a presale boost; for a known positive price the margin is
`max 0 (base 10 + cheap bonus (10 when primary_min ≤ 50) + (demand - 50) * 0.4)`,
floored at 0, with the demand-excess bonus linear above the midpoint 50. -/
theorem C5_margin_formula (o : Opportunity) :
    (o.primary_min ≤ 0 → o.margin_pct_guess = 0) ∧
    (0 < o.primary_min → o.margin_pct_guess =
      max 0 (10 + (if o.primary_min ≤ 50 then (10 : ℚ) else 0)
        + (o.demand_score - 50) * (2 / 5))) := by
  constructor
  · intro h
    rw [Opportunity.margin_pct_guess, if_pos h]
  · intro h
    rw [Opportunity.margin_pct_guess, if_neg (not_le.mpr h)]

/-- Witness for C5: the amended formula evaluated at `oppUnknown` (unknown
price) and at `oppHot` (known cheap price). -/
theorem C5_margin_formula_witness :
    oppUnknown.margin_pct_guess = 0 ∧
    oppHot.margin_pct_guess =
      max 0 (10 + (if oppHot.primary_min ≤ 50 then (10 : ℚ) else 0)
        + (oppHot.demand_score - 50) * (2 / 5)) :=
  ⟨(C5_margin_formula oppUnknown).1 (by with_unfolding_all decide),
   (C5_margin_formula oppHot).2 (by with_unfolding_all decide)⟩

/-- C1 counterexample: `pageEmpty` has no "no events" marker and no
detectable price, yet extraction yields the not-tradable sentinel
`(-1, -1)` rather than a zero "price unknown", and the listing is dropped
from the scan (absent), not kept with `price_min = 0`. -/
theorem C1_counterexample :
    pageEmpty.hasNoEventsMarker = false ∧
    extract_prices_from_html pageEmpty = (-1, -1) ∧
    fetch_tm_music_hot true [cfgA] (fun _ => some pageEmpty) = [] := by
  with_unfolding_all decide

/-- C1 amended: the two failure modes collapse. Every page that matches a
marker phrase, and every page with no detectable price at all, yields the
same sentinel `(-1, -1)` ("If still no prices, treat as non-tradable"), and
either way the watchlist adapters drop the listing for the cycle; there is
no "price unknown as zero, listing present" path for priceless pages. -/
theorem C1_sentinel_collapse (pg : Page) (cfg : WatchTarget)
    (h : pg.hasNoEventsMarker = true ∨ (pg.jsonPrices = [] ∧ pg.regexPrices = [])) :
    extract_prices_from_html pg = (-1, -1) ∧
    fetch_tm_music_hot true [cfg] (fun _ => some pg) = [] ∧
    fetch_tm_boxing_hot true [cfg] (fun _ => some pg) = [] := by
  have hx : extract_prices_from_html pg = (-1, -1) := by
    unfold extract_prices_from_html
    rcases h with h | ⟨h1, h2⟩
    · rw [if_pos (by simp [h])]
    · by_cases hm : pg.hasNoEventsMarker
      · rw [if_pos (by simp [hm])]
      · rw [if_neg (by simp [hm])]
        simp [h1, h2]
  have hdrop := adapters_drop_sentinel cfg (fun _ => some pg)
    (by simpa [scrape_ticketmaster_prices] using hx)
  exact ⟨hx, hdrop.1, hdrop.2⟩

/-- Witness for C1's amended theorem: a marker page is extracted to the
sentinel and dropped by the adapter. -/
theorem C1_sentinel_collapse_witness :
    extract_prices_from_html pageMarker = (-1, -1) ∧
    fetch_tm_music_hot true [cfgA] (fun _ => some pageMarker) = [] ∧
    fetch_tm_boxing_hot true [cfgA] (fun _ => some pageMarker) = [] :=
  C1_sentinel_collapse pageMarker cfgA (Or.inl rfl)

/-- C10: a manual scan never touches the alerted set and never pushes alert
messages to subscribers. The `/scan` handler only adds the requester to the
known users and renders the scan back to them, and both HUD scan branches
leave the state untouched entirely; alert dispatch and alerted-set insertion
happen only in `radar_tick`. -/
theorem C10_manual_scan_frame (s : BotState) (mwl bwl : List WatchTarget)
    (fr : WatchTarget → Option Page) (user : Int) :
    (cmd_scan s mwl bwl fr user).state.alerted = s.alerted ∧
    (cmd_scan s mwl bwl fr user).alertsSent = [] ∧
    (cmd_scan s mwl bwl fr user).state =
      { s with known_users := insert user s.known_users } ∧
    (hud_hot s mwl bwl fr).state = s ∧
    (hud_hot s mwl bwl fr).alertsSent = [] ∧
    (hud_scan s mwl bwl fr).state = s ∧
    (hud_scan s mwl bwl fr).alertsSent = [] :=
  ⟨rfl, rfl, rfl, rfl, rfl, rfl, rfl⟩

/-- C4: the claim is right about the intent and the code is wrong. A manual
`/scan` completes (its reply renders one opportunity) yet leaves
`LAST_SCAN_TIME`/`LAST_SCAN_COUNT` untouched — only the automatic tick
overwrites them. The code contradicts its own `/status` handler, which
answers "I have not completed a radar scan yet. Use /scan to trigger one."
and would keep saying so after that very `/scan` succeeded. -/
theorem C4_manual_scan_metadata_bug :
    (cmd_scan s0 [cfgA] [] fetchW 7).reply ≠ [] ∧
    (cmd_scan s0 [cfgA] [] fetchW 7).state.last_scan_time = none ∧
    (cmd_scan s0 [cfgA] [] fetchW 7).state.last_scan_count = 0 ∧
    (radar_tick (cmd_scan s0 [cfgA] [] fetchW 7).state [cfgA] [] fetchW 42).state.last_scan_time
      = some 42 ∧
    (radar_tick (cmd_scan s0 [cfgA] [] fetchW 7).state [cfgA] [] fetchW 42).state.last_scan_count
      = 1 := by
  with_unfolding_all decide

/-- Ordered insertion commutes with restriction to one trade-score class:
filtering `orderedInsert a l` by a fixed score picks the same subsequence,
in the same order, as filtering `a :: l`. This is the stability of the
insertion: an element is inserted strictly after every earlier element of
equal trade score. -/
theorem filter_score_orderedInsert (s : ℚ) (a : Opportunity) (l : List Opportunity) :
    (List.orderedInsert tradeGE a l).filter (fun o => decide (o.trade_score = s)) =
      List.filter (fun o => decide (o.trade_score = s)) (a :: l) := by
  induction l with
  | nil => rfl
  | cons b l ih =>
    rw [List.orderedInsert]
    by_cases hab : tradeGE a b
    · rw [if_pos hab]
    · rw [if_neg hab]
      by_cases hb : b.trade_score = s
      · have ha : ¬ a.trade_score = s := fun h => hab (le_of_eq (hb.trans h.symm))
        simp [List.filter_cons, ih, hb, ha]
      · simp [List.filter_cons, ih, hb]

/-- Stability of the whole sort: restricting the sorted scan to any fixed
trade score returns exactly the input's subsequence of that score, in the
input's order. -/
theorem filter_score_insertionSort (s : ℚ) (l : List Opportunity) :
    (List.insertionSort tradeGE l).filter (fun o => decide (o.trade_score = s)) =
      l.filter (fun o => decide (o.trade_score = s)) := by
  induction l with
  | nil => rfl
  | cons a l ih =>
    rw [show List.insertionSort tradeGE (a :: l)
        = List.orderedInsert tradeGE a (List.insertionSort tradeGE l) from rfl,
      filter_score_orderedInsert, List.filter_cons, List.filter_cons, ih]

/-- C6: every scan result is the concatenation of the enabled adapters'
outputs (music then boxing, the `gather` order), sorted non-increasingly by
`trade_score` (`Sorted tradeGE`); the sort is a permutation of the
concatenation and is stable — restricted to any fixed trade score the
output equals the input subsequence in provider-emission order; with both
adapters empty, or both disabled, the scan result is `[]`, not an error. -/
theorem C6_scan_sorted_stable (me be : Bool) (mwl bwl : List WatchTarget)
    (fr : WatchTarget → Option Page) :
    List.Sorted tradeGE (run_radar_scan me be mwl bwl fr) ∧
    (run_radar_scan me be mwl bwl fr).Perm
      (fetch_tm_music_hot me mwl fr ++ fetch_tm_boxing_hot be bwl fr) ∧
    (∀ s : ℚ,
      (run_radar_scan me be mwl bwl fr).filter (fun o => decide (o.trade_score = s)) =
        (fetch_tm_music_hot me mwl fr ++ fetch_tm_boxing_hot be bwl fr).filter
          (fun o => decide (o.trade_score = s))) ∧
    (fetch_tm_music_hot me mwl fr = [] → fetch_tm_boxing_hot be bwl fr = [] →
      run_radar_scan me be mwl bwl fr = []) ∧
    (me = false → be = false → run_radar_scan me be mwl bwl fr = []) := by
  refine ⟨List.sorted_insertionSort tradeGE _, List.perm_insertionSort tradeGE _,
    fun s => filter_score_insertionSort s _, ?_, ?_⟩
  · intro h1 h2
    unfold run_radar_scan
    rw [h1, h2]
    rfl
  · intro h1 h2
    subst h1; subst h2
    rfl

/-- Witness for C6: sortedness and score-class stability of the concrete
scan `scanC` (six opportunities of score 120). -/
theorem C6_scan_sorted_stable_witness :
    List.Sorted tradeGE (run_radar_scan true true musicWl6 [] fetchW) ∧
    (run_radar_scan true true musicWl6 [] fetchW).filter
        (fun o => decide (o.trade_score = 120)) =
      (fetch_tm_music_hot true musicWl6 fetchW
          ++ fetch_tm_boxing_hot true [] fetchW).filter
        (fun o => decide (o.trade_score = 120)) :=
  ⟨(C6_scan_sorted_stable true true musicWl6 [] fetchW).1,
   (C6_scan_sorted_stable true true musicWl6 [] fetchW).2.2.1 120⟩

/-- Elements of the qualifying-and-new list are not yet alerted. -/
theorem mem_qualifyingNew_not_alerted {opps : List Opportunity}
    {alerted : Finset String} {threshold : ℚ} {o : Opportunity}
    (h : o ∈ qualifyingNew opps alerted threshold) :
    o.event_id ∉ alerted := by
  simpa using (List.mem_filter.mp h).2

/-- Growing the alerted set refines the qualifying-and-new list: with
`alerted ∪ X` it is the old list filtered by the new exclusion. -/
theorem qualifyingNew_union (opps : List Opportunity) (alerted X : Finset String)
    (threshold : ℚ) :
    qualifyingNew opps (alerted ∪ X) threshold =
      (qualifyingNew opps alerted threshold).filter
        (fun o => decide (o.event_id ∉ alerted ∪ X)) := by
  unfold qualifyingNew
  conv_rhs => rw [List.filter_filter]
  refine List.filter_congr fun o _ => ?_
  by_cases h : o.event_id ∈ alerted
  · simp [h]
  · simp [h]

/-- C2: the alert filter with `maxBatch = 5` delivers exactly the first five
qualifying new opportunities in rank order and marks exactly those: the
delivered batch is `take 5` of the qualifying-new list, its length is 5
(assuming more than five qualify), the alerted set gains exactly the
delivered identifiers, the truncated-away remainder is neither delivered nor
marked, and the next cycle's qualifying-new list on the same scan is exactly
that remainder — it stays eligible. Distinctness of the qualifying
identifiers is assumed (watchlist event ids are unique). -/
theorem C2_alert_filter_truncation (opps : List Opportunity) (alerted : Finset String)
    (threshold : ℚ)
    (h5 : 5 < (qualifyingNew opps alerted threshold).length)
    (hnd : ((qualifyingNew opps alerted threshold).map (fun o => o.event_id)).Nodup) :
    (selectAlerts opps alerted threshold 5).1 =
      (qualifyingNew opps alerted threshold).take 5 ∧
    (selectAlerts opps alerted threshold 5).1.length = 5 ∧
    (selectAlerts opps alerted threshold 5).2 =
      alerted ∪ (((qualifyingNew opps alerted threshold).take 5).map
        (fun o => o.event_id)).toFinset ∧
    (∀ o ∈ (qualifyingNew opps alerted threshold).drop 5,
      o.event_id ∉ (selectAlerts opps alerted threshold 5).2) ∧
    qualifyingNew opps (selectAlerts opps alerted threshold 5).2 threshold =
      (qualifyingNew opps alerted threshold).drop 5 := by
  set nh := qualifyingNew opps alerted threshold with hnh
  set T := ((nh.take 5).map (fun o => o.event_id)).toFinset with hT
  have hsel1 : (selectAlerts opps alerted threshold 5).1 = nh.take 5 := rfl
  have hsel2 : (selectAlerts opps alerted threshold 5).2 = alerted ∪ T := by rw [hT]; exact rfl
  have hsplit : nh.take 5 ++ nh.drop 5 = nh := List.take_append_drop 5 nh
  have hnd' : ((nh.take 5).map (fun o => o.event_id)
      ++ (nh.drop 5).map (fun o => o.event_id)).Nodup := by
    rw [← List.map_append, hsplit]
    exact hnd
  have hdisj : ∀ o ∈ nh.drop 5,
      o.event_id ∉ (nh.take 5).map (fun o => o.event_id) := fun o ho hin =>
    (List.disjoint_of_nodup_append hnd') hin (List.mem_map_of_mem _ ho)
  have hnot : ∀ o ∈ nh.drop 5,
      o.event_id ∉ (selectAlerts opps alerted threshold 5).2 := by
    intro o ho hmem
    rw [hsel2] at hmem
    rcases Finset.mem_union.mp hmem with hA | hTm
    · exact mem_qualifyingNew_not_alerted (hnh ▸ List.drop_subset 5 nh ho) hA
    · rw [hT] at hTm
      exact hdisj o ho (List.mem_toFinset.mp hTm)
  have hlen : (nh.take 5).length = 5 := by
    rw [List.length_take]
    omega
  have hfinal : qualifyingNew opps (selectAlerts opps alerted threshold 5).2 threshold
      = nh.drop 5 := by
    rw [hsel2, qualifyingNew_union, ← hnh]
    have h1 : (nh.take 5).filter
        (fun o => decide (o.event_id ∉ alerted ∪ T)) = [] := by
      rw [List.filter_eq_nil_iff]
      intro o ho
      simp only [decide_eq_true_eq, not_not]
      refine Finset.mem_union_right _ ?_
      rw [hT]
      exact List.mem_toFinset.mpr (List.mem_map_of_mem _ ho)
    have h2 : (nh.drop 5).filter
        (fun o => decide (o.event_id ∉ alerted ∪ T)) = nh.drop 5 := by
      rw [List.filter_eq_self]
      intro o ho
      have h3 := hnot o ho
      rw [hsel2] at h3
      simpa using h3
    conv_lhs => rw [← hsplit]
    rw [List.filter_append, h1, h2, List.nil_append]
  exact ⟨hsel1, by rw [hsel1]; exact hlen, hsel2, hnot, hfinal⟩

/-- Witness for C2: on the concrete scan `scanC` (six qualifying new
opportunities, empty alerted set) exactly five are delivered and the next
cycle's qualifying-new list is the sixth. -/
theorem C2_alert_filter_truncation_witness :
    (selectAlerts scanC ∅ MONEY_MAKER_THRESHOLD 5).1.length = 5 ∧
    qualifyingNew scanC (selectAlerts scanC ∅ MONEY_MAKER_THRESHOLD 5).2
        MONEY_MAKER_THRESHOLD =
      (qualifyingNew scanC ∅ MONEY_MAKER_THRESHOLD).drop 5 :=
  ⟨(C2_alert_filter_truncation scanC ∅ MONEY_MAKER_THRESHOLD
      (by with_unfolding_all decide) (by with_unfolding_all decide)).2.1,
   (C2_alert_filter_truncation scanC ∅ MONEY_MAKER_THRESHOLD
      (by with_unfolding_all decide) (by with_unfolding_all decide)).2.2.2.2⟩

/-- C7 counterexample: on the concrete scan `scanC` with an empty starting
alerted set, six opportunities qualify, the first run delivers five, and the
second run on the same scan with the first run's output set delivers the
remaining one — the claimed unconditional idempotence fails whenever the
first run truncates. -/
theorem C7_counterexample :
    (selectAlerts scanC (selectAlerts scanC ∅ MONEY_MAKER_THRESHOLD 5).2
      MONEY_MAKER_THRESHOLD 5).1 ≠ [] := by
  with_unfolding_all decide

/-- C7 amended: the alerted set only ever gains identifiers (every run's
output set contains its input set), and the dedup is idempotent exactly when
the first run does not truncate: if at most `maxBatch` opportunities qualify
as new, a second run on the same scan result with the first run's output set
delivers nothing. -/
theorem C7_dedup_monotone (opps : List Opportunity) (alerted : Finset String)
    (threshold : ℚ) (maxBatch : ℕ)
    (hk : (qualifyingNew opps alerted threshold).length ≤ maxBatch) :
    (∀ A : Finset String, A ⊆ (selectAlerts opps A threshold maxBatch).2) ∧
    (selectAlerts opps (selectAlerts opps alerted threshold maxBatch).2
      threshold maxBatch).1 = [] := by
  constructor
  · intro A
    exact Finset.subset_union_left
  · set nh := qualifyingNew opps alerted threshold with hnh
    have htake : nh.take maxBatch = nh := List.take_of_length_le hk
    set T := ((nh.take maxBatch).map (fun o => o.event_id)).toFinset with hT
    have hsel2 : (selectAlerts opps alerted threshold maxBatch).2 = alerted ∪ T := by
      rw [hT]; exact rfl
    show (qualifyingNew opps (selectAlerts opps alerted threshold maxBatch).2
      threshold).take maxBatch = []
    rw [hsel2, qualifyingNew_union, ← hnh]
    have hnil : nh.filter (fun o => decide (o.event_id ∉ alerted ∪ T)) = [] := by
      rw [List.filter_eq_nil_iff]
      intro o ho
      simp only [decide_eq_true_eq, not_not]
      refine Finset.mem_union_right _ ?_
      rw [hT, htake]
      exact List.mem_toFinset.mpr (List.mem_map_of_mem _ ho)
    rw [hnil, List.take_nil]

/-- Witness for C7's amended theorem: with batch cap 10 the six qualifying
opportunities of `scanC` all fit, and the second run is empty. -/
theorem C7_dedup_monotone_witness :
    (∅ : Finset String) ⊆ (selectAlerts scanC ∅ MONEY_MAKER_THRESHOLD 10).2 ∧
    (selectAlerts scanC (selectAlerts scanC ∅ MONEY_MAKER_THRESHOLD 10).2
      MONEY_MAKER_THRESHOLD 10).1 = [] :=
  ⟨(C7_dedup_monotone scanC ∅ MONEY_MAKER_THRESHOLD 10
      (by with_unfolding_all decide)).1 ∅,
   (C7_dedup_monotone scanC ∅ MONEY_MAKER_THRESHOLD 10
      (by with_unfolding_all decide)).2⟩

/-- The fetch loop never makes more attempts than it is allowed. -/
theorem fetchAux_attempts_le (env : Nat → AttemptOutcome) :
    ∀ r i delay, (fetchAux env r i delay).attempts ≤ r := by
  intro r
  induction r with
  | zero => intro i delay; exact Nat.le_refl 0
  | succ r ih =>
    intro i delay
    rw [fetchAux]
    cases henv : env i with
    | response s body =>
      dsimp only
      by_cases h200 : s = 200
      · rw [if_pos h200]
        exact Nat.succ_le_succ (Nat.zero_le r)
      · rw [if_neg h200]
        by_cases hr : retryable (.response s body) = true
        · rw [if_pos hr]
          exact Nat.succ_le_succ (ih (i + 1) _)
        · rw [if_neg hr]
          exact Nat.succ_le_succ (Nat.zero_le r)
    | transportError =>
      dsimp only
      exact Nat.succ_le_succ (ih (i + 1) _)

/-- A successful fetch means some attempt within the budget answered 200
with that body, and every earlier attempt was a retryable outcome. -/
theorem fetchAux_result_some (env : Nat → AttemptOutcome) :
    ∀ r i delay b, (fetchAux env r i delay).result = some b →
      ∃ k, k < r ∧ env (i + k) = .response 200 b ∧
        ∀ j, j < k → retryable (env (i + j)) = true := by
  intro r
  induction r with
  | zero =>
    intro i delay b h
    exact absurd h (by simp [fetchAux])
  | succ r ih =>
    intro i delay b h
    rw [fetchAux] at h
    cases henv : env i with
    | response s body =>
      rw [henv] at h
      dsimp only at h
      by_cases h200 : s = 200
      · rw [if_pos h200] at h
        refine ⟨0, Nat.succ_pos r, ?_, fun j hj => absurd hj (Nat.not_lt_zero j)⟩
        rw [Nat.add_zero, henv, h200]
        simp only [Option.some.injEq] at h
        rw [h]
      · rw [if_neg h200] at h
        by_cases hr : retryable (.response s body) = true
        · rw [if_pos hr] at h
          obtain ⟨k, hk, hkk, hj⟩ := ih (i + 1) _ b h
          refine ⟨k + 1, Nat.succ_lt_succ hk, ?_, ?_⟩
          · rw [show i + (k + 1) = i + 1 + k by omega]
            exact hkk
          · intro j hjk
            cases j with
            | zero => rw [Nat.add_zero, henv]; exact hr
            | succ j =>
              rw [show i + (j + 1) = i + 1 + j by omega]
              exact hj j (Nat.lt_of_succ_lt_succ hjk)
        · rw [if_neg hr] at h
          exact absurd h (by simp)
    | transportError =>
      rw [henv] at h
      dsimp only at h
      obtain ⟨k, hk, hkk, hj⟩ := ih (i + 1) _ b h
      refine ⟨k + 1, Nat.succ_lt_succ hk, ?_, ?_⟩
      · rw [show i + (k + 1) = i + 1 + k by omega]
        exact hkk
      · intro j hjk
        cases j with
        | zero => rw [Nat.add_zero, henv]; rfl
        | succ j =>
          rw [show i + (j + 1) = i + 1 + j by omega]
          exact hj j (Nat.lt_of_succ_lt_succ hjk)

/-- A non-200, non-retryable response ends the call at once: no retry, no
sleep, result `None`. -/
theorem fetchAux_permanent (env : Nat → AttemptOutcome) (r i delay : Nat)
    (s : Nat) (body : String) (h : env i = .response s body) (h200 : s ≠ 200)
    (hr : retryable (.response s body) = false) :
    fetchAux env (r + 1) i delay = ⟨none, 1, []⟩ := by
  rw [fetchAux, h]
  dsimp only
  rw [if_neg h200, if_neg (by rw [hr]; exact Bool.false_ne_true)]

/-- Doubling a capped delay is the next capped delay. -/
theorem dseq_succ (j : Nat) : min (dseq j * 2) 60 = dseq (j + 1) := by
  have h : 5 * 2 ^ (j + 1) = 5 * 2 ^ j * 2 := by ring
  simp only [dseq, h]
  omega

/-- The sleeps a fetch performs are successive capped doublings: starting
the loop with delay `dseq j`, the `k`-th sleep is `dseq (j + k)`. -/
theorem fetchAux_sleeps (env : Nat → AttemptOutcome) :
    ∀ r i j, (fetchAux env r i (dseq j)).sleeps =
      (List.range (fetchAux env r i (dseq j)).sleeps.length).map
        (fun k => dseq (j + k)) := by
  intro r
  induction r with
  | zero => intro i j; rfl
  | succ r ih =>
    intro i j
    rw [fetchAux]
    cases henv : env i with
    | response s body =>
      dsimp only
      by_cases h200 : s = 200
      · rw [if_pos h200]
        rfl
      · rw [if_neg h200]
        by_cases hr : retryable (.response s body) = true
        · rw [if_pos hr]
          rw [dseq_succ]
          rw [ih (i + 1) (j + 1)]
          simp only [List.length_cons, List.length_map, List.length_range,
            List.range_succ_eq_map, List.map_cons, List.map_map]
          have hfun : ((fun k => dseq (j + k)) ∘ Nat.succ) = fun k => dseq (j + 1 + k) := by
            funext k
            simp only [Function.comp_apply]
            congr 1
            omega
          simp only [hfun, Nat.add_zero]
        · rw [if_neg hr]
          rfl
    | transportError =>
      dsimp only
      rw [dseq_succ]
      rw [ih (i + 1) (j + 1)]
      simp only [List.length_cons, List.length_map, List.length_range,
        List.range_succ_eq_map, List.map_cons, List.map_map]
      have hfun : ((fun k => dseq (j + k)) ∘ Nat.succ) = fun k => dseq (j + 1 + k) := by
        funext k
        simp only [Function.comp_apply]
        congr 1
        omega
      simp only [hfun, Nat.add_zero]

/-- C8: the retry policy of `fetch_html`. With the default budget, at most 3
attempts are made per logical call; a returned body means some attempt
answered HTTP 200 with that body and every earlier attempt was retryable
(status 429, 500, 502, 503 or 504, or a transport error — `retryable`); any
other non-200 status on the first attempt is a permanent failure returned
immediately, with one attempt and no sleep; and the performed backoff sleeps
are successive doublings of the 5-second base capped at 60 seconds. The
caller observes only `FetchTrace.result`: a body or `none`. -/
theorem C8_fetch_retry_policy (env : Nat → AttemptOutcome) :
    (fetch_html env).attempts ≤ 3 ∧
    (∀ b, (fetch_html env).result = some b →
      ∃ k, k < 3 ∧ env k = .response 200 b ∧
        ∀ j, j < k → retryable (env j) = true) ∧
    (∀ s body, env 0 = .response s body → s ≠ 200 →
      retryable (.response s body) = false → fetch_html env = ⟨none, 1, []⟩) ∧
    (fetch_html env).sleeps =
      (List.range (fetch_html env).sleeps.length).map (fun k => min (5 * 2 ^ k) 60) := by
  refine ⟨fetchAux_attempts_le env 3 0 5, ?_, ?_, ?_⟩
  · intro b hb
    obtain ⟨k, hk, h200, hret⟩ := fetchAux_result_some env 3 0 5 b hb
    exact ⟨k, hk, by simpa using h200, fun j hj => by simpa using hret j hj⟩
  · intro s body h0 h200 hr
    exact fetchAux_permanent env 2 0 5 s body h0 h200 hr
  · simpa [dseq] using fetchAux_sleeps env 3 0 0

/-- Witness for C8: the environment `envRetry` (503, then transport error,
then 200 "ok") consumes all three attempts, sleeps 5 then 10 seconds, and
returns the body; the environment `envNotFound` (404) fails permanently at
the first attempt with no sleep. -/
theorem C8_fetch_retry_policy_witness :
    (fetch_html envRetry).attempts ≤ 3 ∧
    fetch_html envRetry = ⟨some "ok", 3, [5, 10]⟩ ∧
    fetch_html envNotFound = ⟨none, 1, []⟩ :=
  ⟨(C8_fetch_retry_policy envRetry).1, by decide,
   (C8_fetch_retry_policy envNotFound).2.2.1 404 "not found" rfl
     (by decide) (by decide)⟩

/-- A left fold of `min` never exceeds its seed. -/
theorem foldl_min_le (p : ℚ) (l : List ℚ) : l.foldl min p ≤ p := by
  induction l generalizing p with
  | nil => exact le_refl p
  | cons a l ih => exact le_trans (ih (min p a)) (min_le_left p a)

/-- A left fold of `max` is at least its seed. -/
theorem le_foldl_max (p : ℚ) (l : List ℚ) : p ≤ l.foldl max p := by
  induction l generalizing p with
  | nil => exact le_refl p
  | cons a l ih => exact le_trans (le_max_left p a) (ih (max p a))

/-- A left fold of `min` over nonnegative values from a nonnegative seed is
nonnegative. -/
theorem foldl_min_nonneg (p : ℚ) (l : List ℚ) (hp : 0 ≤ p)
    (hl : ∀ x ∈ l, 0 ≤ x) : 0 ≤ l.foldl min p := by
  induction l generalizing p with
  | nil => exact hp
  | cons a l ih =>
    exact ih (min p a) (le_min hp (hl a (List.mem_cons_self a l)))
      fun x hx => hl x (List.mem_cons_of_mem a hx)

/-- Extraction always returns a pair with first component at most the
second: either the sentinel `(-1, -1)` or `(min prices, max prices)`. -/
theorem extract_fst_le_snd (pg : Page) :
    (extract_prices_from_html pg).1 ≤ (extract_prices_from_html pg).2 := by
  unfold extract_prices_from_html
  by_cases hm : pg.hasNoEventsMarker
  · rw [if_pos (by simp [hm])]
  · rw [if_neg (by simp [hm])]
    cases hq : (if pg.jsonPrices.isEmpty then pg.regexPrices else pg.jsonPrices) with
    | nil => exact le_refl (-1)
    | cons p ps => exact le_trans (foldl_min_le p ps) (le_foldl_max p ps)

/-- When every JSON-walk price on the page is nonnegative, extraction
returns either the sentinel or a nonnegative minimum (regex prices are
nonnegative by construction of the digit regex). -/
theorem extract_sentinel_or_nonneg (pg : Page)
    (hj : ∀ p ∈ pg.jsonPrices, 0 ≤ p) :
    extract_prices_from_html pg = (-1, -1) ∨
      0 ≤ (extract_prices_from_html pg).1 := by
  unfold extract_prices_from_html
  by_cases hm : pg.hasNoEventsMarker
  · left
    rw [if_pos (by simp [hm])]
  · rw [if_neg (by simp [hm])]
    cases hq : (if pg.jsonPrices.isEmpty then pg.regexPrices else pg.jsonPrices) with
    | nil => left; rfl
    | cons p ps =>
      right
      have hall : ∀ x ∈ p :: ps, 0 ≤ x := by
        intro x hx
        rw [← hq] at hx
        by_cases hje : pg.jsonPrices.isEmpty
        · exact pg.regexPrices_nonneg x (by simpa [hje] using hx)
        · exact hj x (by simpa [hje] using hx)
      exact foldl_min_nonneg p ps (hall p (List.mem_cons_self p ps))
        fun x hx => hall x (List.mem_cons_of_mem p hx)

/-- Scraping preserves the component order of extraction. -/
theorem scrape_fst_le_snd (fetched : Option Page) :
    (scrape_ticketmaster_prices fetched).1 ≤ (scrape_ticketmaster_prices fetched).2 := by
  cases fetched with
  | none => exact le_refl (-1)
  | some pg => exact extract_fst_le_snd pg

/-- Scraping a page with all-nonnegative JSON prices gives the sentinel or a
nonnegative minimum. -/
theorem scrape_sentinel_or_nonneg (fetched : Option Page)
    (hj : ∀ pg, fetched = some pg → ∀ p ∈ pg.jsonPrices, 0 ≤ p) :
    scrape_ticketmaster_prices fetched = (-1, -1) ∨
      0 ≤ (scrape_ticketmaster_prices fetched).1 := by
  cases fetched with
  | none => left; rfl
  | some pg => exact extract_sentinel_or_nonneg pg (hj pg rfl)

/-- Decomposition of music-adapter membership: every produced opportunity
comes from a watch target whose scrape passed the sentinel guard. -/
theorem mem_fetch_tm_music_hot {me : Bool} {wl : List WatchTarget}
    {fr : WatchTarget → Option Page} {o : Opportunity}
    (h : o ∈ fetch_tm_music_hot me wl fr) :
    ∃ cfg ∈ wl,
      ¬((scrape_ticketmaster_prices (fr cfg)).1 < 0 ∧
        (scrape_ticketmaster_prices (fr cfg)).2 < 0) ∧
      o = musicOpp cfg (scrape_ticketmaster_prices (fr cfg)).1
        (scrape_ticketmaster_prices (fr cfg)).2 := by
  unfold fetch_tm_music_hot at h
  by_cases hme : me = false
  · rw [if_pos hme] at h
    cases h
  · rw [if_neg hme] at h
    obtain ⟨cfg, hcfg, hf⟩ := List.mem_filterMap.mp h
    refine ⟨cfg, hcfg, ?_⟩
    by_cases hu : cfg.url = ""
    · rw [if_pos hu] at hf
      cases hf
    · rw [if_neg hu] at hf
      dsimp only at hf
      by_cases hg : (scrape_ticketmaster_prices (fr cfg)).1 < 0 ∧
          (scrape_ticketmaster_prices (fr cfg)).2 < 0
      · rw [if_pos hg] at hf
        cases hf
      · rw [if_neg hg] at hf
        exact ⟨hg, (Option.some_injective _ hf).symm⟩

/-- Decomposition of boxing-adapter membership, same shape. -/
theorem mem_fetch_tm_boxing_hot {be : Bool} {wl : List WatchTarget}
    {fr : WatchTarget → Option Page} {o : Opportunity}
    (h : o ∈ fetch_tm_boxing_hot be wl fr) :
    ∃ cfg ∈ wl,
      ¬((scrape_ticketmaster_prices (fr cfg)).1 < 0 ∧
        (scrape_ticketmaster_prices (fr cfg)).2 < 0) ∧
      o = boxingOpp cfg (scrape_ticketmaster_prices (fr cfg)).1
        (scrape_ticketmaster_prices (fr cfg)).2 := by
  unfold fetch_tm_boxing_hot at h
  by_cases hbe : be = false
  · rw [if_pos hbe] at h
    cases h
  · rw [if_neg hbe] at h
    obtain ⟨cfg, hcfg, hf⟩ := List.mem_filterMap.mp h
    refine ⟨cfg, hcfg, ?_⟩
    by_cases hu : cfg.url = ""
    · rw [if_pos hu] at hf
      cases hf
    · rw [if_neg hu] at hf
      dsimp only at hf
      by_cases hg : (scrape_ticketmaster_prices (fr cfg)).1 < 0 ∧
          (scrape_ticketmaster_prices (fr cfg)).2 < 0
      · rw [if_pos hg] at hf
        cases hf
      · rw [if_neg hg] at hf
        exact ⟨hg, (Option.some_injective _ hf).symm⟩

/-- The music demand score is bounded by 55 + 10 + 25 + 10 = 100. -/
theorem musicDemand_le (name city : String) (pm : ℚ) :
    musicDemand name city pm ≤ 100 := by
  unfold musicDemand
  split_ifs <;> norm_num

/-- The boxing demand score is bounded by 60 + 30 + 10 = 100. -/
theorem boxingDemand_le (name : String) (pm : ℚ) :
    boxingDemand name pm ≤ 100 := by
  unfold boxingDemand
  split_ifs <;> norm_num

/-- C9 counterexample: the claim that every constructed opportunity has
`0 ≤ primary_min` fails. Scraping `pageNegJson` — whose matched JSON block
walks to the prices `10` and `-5` — gives `(-5, 10)`; the skip guard
requires both components negative, so the music adapter constructs an
opportunity with `primary_min = -5 < 0`. -/
theorem C9_counterexample :
    ∃ o ∈ fetch_tm_music_hot true [cfgA] fun _ => some pageNegJson,
      o.primary_min < 0 := by
  with_unfolding_all decide

/-- C9 amended: for every opportunity constructed by either watchlist
adapter, the demand score is at most 100 (each boost applies at most once
and the trending loops stop at the first match), `primary_min ≤ primary_max`
always holds, and the sentinel pair never reaches a constructed opportunity
(`primary_min` and `primary_max` are never both negative); but
`0 ≤ primary_min` holds only under the extra assumption that every fetched
page's JSON-walk prices are nonnegative — the `£`-regex path guarantees
nonnegativity, the JSON walk does not. -/
theorem C9_constructed_opportunity_invariants (me be : Bool)
    (mwl bwl : List WatchTarget) (fr : WatchTarget → Option Page)
    (o : Opportunity) :
    (o ∈ fetch_tm_music_hot me mwl fr →
      o.demand_score ≤ 100 ∧ o.primary_min ≤ o.primary_max ∧
      ¬(o.primary_min < 0 ∧ o.primary_max < 0) ∧
      ((∀ t pg, fr t = some pg → ∀ p ∈ pg.jsonPrices, 0 ≤ p) →
        0 ≤ o.primary_min)) ∧
    (o ∈ fetch_tm_boxing_hot be bwl fr →
      o.demand_score ≤ 100 ∧ o.primary_min ≤ o.primary_max ∧
      ¬(o.primary_min < 0 ∧ o.primary_max < 0) ∧
      ((∀ t pg, fr t = some pg → ∀ p ∈ pg.jsonPrices, 0 ≤ p) →
        0 ≤ o.primary_min)) := by
  constructor
  · intro h
    obtain ⟨cfg, _, hg, ho⟩ := mem_fetch_tm_music_hot h
    subst ho
    refine ⟨musicDemand_le cfg.name cfg.city _, scrape_fst_le_snd (fr cfg), hg, ?_⟩
    intro hj
    rcases scrape_sentinel_or_nonneg (fr cfg) (fun pg hpg => hj cfg pg hpg) with hs | hpos
    · exact absurd (by rw [hs]; norm_num : (scrape_ticketmaster_prices (fr cfg)).1 < 0 ∧
        (scrape_ticketmaster_prices (fr cfg)).2 < 0) hg
    · exact hpos
  · intro h
    obtain ⟨cfg, _, hg, ho⟩ := mem_fetch_tm_boxing_hot h
    subst ho
    refine ⟨boxingDemand_le cfg.name _, scrape_fst_le_snd (fr cfg), hg, ?_⟩
    intro hj
    rcases scrape_sentinel_or_nonneg (fr cfg) (fun pg hpg => hj cfg pg hpg) with hs | hpos
    · exact absurd (by rw [hs]; norm_num : (scrape_ticketmaster_prices (fr cfg)).1 < 0 ∧
        (scrape_ticketmaster_prices (fr cfg)).2 < 0) hg
    · exact hpos

/-- Witness for C9's amended theorem: the opportunity the music adapter
builds from `cfgA` at `£40` has demand at most 100 and a nonnegative
minimum price (the serving page has no JSON prices). -/
theorem C9_constructed_opportunity_invariants_witness :
    oppA40.demand_score ≤ 100 ∧ oppA40.primary_min ≤ oppA40.primary_max ∧
    0 ≤ oppA40.primary_min := by
  have h := (C9_constructed_opportunity_invariants true true [cfgA] [] fetchW
    oppA40).1 (by with_unfolding_all decide)
  refine ⟨h.1, h.2.1, h.2.2.2 ?_⟩
  intro t pg hpg p hp
  have hpp : pg = pagePrice40 := by
    have := hpg.symm.trans (rfl : fetchW t = some pagePrice40)
    exact (Option.some_injective _ this.symm).symm
  rw [hpp] at hp
  simp [pagePrice40] at hp

end SpectraSeat
